import Mathlib

/-!
Verification development for the virtual-card-shop backend.

The file embeds, as executable Lean definitions, the parts of the
repository relevant to the checked properties:

* the custom error classes of `src/backend/src/errors/customErrors.ts`
  (their constructors and `toJSON` methods);
* the `AdminService` card-management operations of
  `src/backend/src/index.ts` (`createCard`, `getCardById`, `updateCard`,
  `deleteCard` and their private validators);
* the pack/box opening engine (draw engine, composer, ledger and
  inventory applier, orchestrator).  The engine is not implemented in
  the repository source — only its type definitions exist — so those
  definitions are modelled from the specification and are marked
  `Modelled from the spec:` in their doc comments.

Numbers are embedded as `Nat`/`Int` (TypeScript `number` used only for
counts, prices and sign checks here), JavaScript `undefined` as
`Option`, thrown errors as `Except`.
-/

namespace CardShop

/-! ## JSON values, for the error-response objects -/

/-- A small JSON value universe, sufficient for the responses produced by
the `toJSON` methods in `customErrors.ts`.  `jsUndefined` stands for a field
spread with value `undefined`. -/
inductive JsonVal where
  | str : String → JsonVal
  | num : Nat → JsonVal
  | jsUndefined : JsonVal
  | arr : List JsonVal → JsonVal
  | record : List (String × JsonVal) → JsonVal

/-- A JSON response object: an association list of fields. -/
abbrev JsonObj := List (String × JsonVal)

/-- Whether a response object carries the named field. -/
def hasField (j : JsonObj) (k : String) : Bool :=
  (j.lookup k).isSome

/-! ## Error classes (`src/backend/src/errors/customErrors.ts`) -/

/-- Base application error: `class AppError extends Error`, carrying a
`message`, a `statusCode` (default 500) and an `isOperational` flag
(default `true`). -/
structure AppError where
  message : String
  statusCode : Nat := 500
  isOperational : Bool := true

/-- Source `AppError.toJSON`: returns the object
with fields `status` (the string "error"), `statusCode` and `message`. -/
def AppError.toJSON (e : AppError) : JsonObj :=
  [("status", .str "error"), ("statusCode", .num e.statusCode), ("message", .str e.message)]

/-- Source `class ValidationError extends AppError` with optional field
errors; its constructor calls `super(message, 400, true)`. -/
structure ValidationError where
  message : String := "Validation failed"
  errors : Option (List (String × List String)) := none

/-- The underlying `AppError` of a `ValidationError` (its `super` call). -/
def ValidationError.toAppError (e : ValidationError) : AppError :=
  { message := e.message, statusCode := 400, isOperational := true }

/-- Source `ValidationError.toJSON`: the base object, plus an `errors` field
when field errors are present. -/
def ValidationError.toJSON (e : ValidationError) : JsonObj :=
  match e.errors with
  | some errs =>
      e.toAppError.toJSON ++
        [("errors", .record (errs.map fun p => (p.1, .arr (p.2.map JsonVal.str))))]
  | none => e.toAppError.toJSON

/-- Source `class NotFoundError extends AppError` with optional `resource` and
`identifier`; its constructor calls `super(message, 404, true)`. -/
structure NotFoundError where
  message : String := "Resource not found"
  resource : Option String := none
  identifier : Option String := none

/-- The underlying `AppError` of a `NotFoundError`. -/
def NotFoundError.toAppError (e : NotFoundError) : AppError :=
  { message := e.message, statusCode := 404, isOperational := true }

/-- Optional string as a JSON value (an `undefined` field stays in the
spread object). -/
def optStr : Option String → JsonVal
  | some s => .str s
  | none => .jsUndefined

/-- Source `NotFoundError.toJSON`: adds `resource` and `identifier` when either
is present. -/
def NotFoundError.toJSON (e : NotFoundError) : JsonObj :=
  if e.resource.isSome || e.identifier.isSome then
    e.toAppError.toJSON ++
      [("resource", optStr e.resource), ("identifier", optStr e.identifier)]
  else
    e.toAppError.toJSON

/-- Source `class UnauthorizedError extends AppError`; constructor calls
`super(message, 401, true)` and the class inherits `AppError.toJSON`. -/
structure UnauthorizedError where
  message : String := "Authentication required"

/-- The underlying `AppError` of an `UnauthorizedError`. -/
def UnauthorizedError.toAppError (e : UnauthorizedError) : AppError :=
  { message := e.message, statusCode := 401, isOperational := true }

/-- Source `UnauthorizedError` inherits `toJSON` from `AppError`. -/
def UnauthorizedError.toJSON (e : UnauthorizedError) : JsonObj :=
  e.toAppError.toJSON

/-- Source `class ForbiddenError extends AppError` with an optional
`requiredPermission`; constructor calls `super(message, 403, true)`. -/
structure ForbiddenError where
  message : String := "Access denied"
  requiredPermission : Option String := none

/-- The underlying `AppError` of a `ForbiddenError`. -/
def ForbiddenError.toAppError (e : ForbiddenError) : AppError :=
  { message := e.message, statusCode := 403, isOperational := true }

/-- Source `ForbiddenError.toJSON`: adds `requiredPermission` when present. -/
def ForbiddenError.toJSON (e : ForbiddenError) : JsonObj :=
  match e.requiredPermission with
  | some p => e.toAppError.toJSON ++ [("requiredPermission", .str p)]
  | none => e.toAppError.toJSON

/-- Source `class ConflictError extends AppError` with optional `conflictField`
and `conflictValue`; constructor calls `super(message, 409, true)`. -/
structure ConflictError where
  message : String := "Request conflicts with current state"
  conflictField : Option String := none
  conflictValue : Option String := none

/-- The underlying `AppError` of a `ConflictError`. -/
def ConflictError.toAppError (e : ConflictError) : AppError :=
  { message := e.message, statusCode := 409, isOperational := true }

/-- Source `ConflictError.toJSON`: adds the conflict fields when either is
present. -/
def ConflictError.toJSON (e : ConflictError) : JsonObj :=
  if e.conflictField.isSome || e.conflictValue.isSome then
    e.toAppError.toJSON ++
      [("conflictField", optStr e.conflictField), ("conflictValue", optStr e.conflictValue)]
  else
    e.toAppError.toJSON

/-- Source `class InternalServerError extends AppError` wrapping an optional
`originalError`; constructor calls `super(message, 500, true)`.  The
wrapped error is embedded by its message string. -/
structure InternalServerError where
  message : String := "Internal server error"
  originalError : Option String := none

/-- The underlying `AppError` of an `InternalServerError`. -/
def InternalServerError.toAppError (e : InternalServerError) : AppError :=
  { message := e.message, statusCode := 500, isOperational := true }

/-- Source `InternalServerError.toJSON` returns `super.toJSON()`: the
`originalError` details are not exposed in the response. -/
def InternalServerError.toJSON (e : InternalServerError) : JsonObj :=
  e.toAppError.toJSON

/-- The class names exported by `customErrors.ts`, in file order. -/
def customErrorsClassNames : List String :=
  ["AppError", "ValidationError", "NotFoundError", "UnauthorizedError",
   "ForbiddenError", "ConflictError", "InternalServerError"]

/-- Any value of one of the error classes defined in `customErrors.ts`. -/
inductive CustomError where
  | app : AppError → CustomError
  | validation : ValidationError → CustomError
  | notFound : NotFoundError → CustomError
  | unauthorized : UnauthorizedError → CustomError
  | forbidden : ForbiddenError → CustomError
  | conflict : ConflictError → CustomError
  | internal : InternalServerError → CustomError

/-- Dynamic dispatch of `toJSON` over the error classes. -/
def CustomError.toJSON : CustomError → JsonObj
  | .app e => e.toJSON
  | .validation e => e.toJSON
  | .notFound e => e.toJSON
  | .unauthorized e => e.toJSON
  | .forbidden e => e.toJSON
  | .conflict e => e.toJSON
  | .internal e => e.toJSON

/-! ## Card rarity enum (`customErrors.ts`, `enum CardRarity`) -/

/-- The `CardRarity` enum: common, uncommon, rare, epic, legendary,
mythic. -/
inductive CardRarity where
  | common
  | uncommon
  | rare
  | epic
  | legendary
  | mythic
deriving DecidableEq, Repr

/-- The string value of each `CardRarity` member, as in the enum. -/
def CardRarity.value : CardRarity → String
  | .common => "common"
  | .uncommon => "uncommon"
  | .rare => "rare"
  | .epic => "epic"
  | .legendary => "legendary"
  | .mythic => "mythic"

/-- All members of the `CardRarity` enum. -/
def CardRarity.all : List CardRarity :=
  [.common, .uncommon, .rare, .epic, .legendary, .mythic]

/-- Numeric rank of a rarity, in enum order. -/
def CardRarity.rank : CardRarity → Nat
  | .common => 0
  | .uncommon => 1
  | .rare => 2
  | .epic => 3
  | .legendary => 4
  | .mythic => 5

/-- Whether a rarity is RARE or higher (rare, epic, legendary, mythic). -/
def CardRarity.isRareOrHigher (r : CardRarity) : Bool :=
  CardRarity.rank .rare ≤ r.rank

/-! ## AdminService (`src/backend/src/index.ts`) -/

namespace Admin

/-- Errors thrown by the `AdminService` operations. -/
inductive AdminError where
  | validation : String → AdminError
  | notFound : String → AdminError
  | unauthorized : String → AdminError
deriving DecidableEq, Repr

/-- Source `CardInput` as used by `validateCardInput`: a name, a rarity string,
and optional numeric `price` and `stock` (optional because the validator
checks them against `undefined`). -/
structure CardInput where
  name : String
  rarity : String
  price : Option Int
  stock : Option Int
deriving DecidableEq, Repr

/-- Source `CardUpdateInput`: every field optional (`Partial` of the input). -/
structure CardUpdateInput where
  name : Option String := none
  rarity : Option String := none
  price : Option Int := none
  stock : Option Int := none
deriving DecidableEq, Repr

/-- Check `Object.keys(updateData).length > 0`: at least one field present. -/
def CardUpdateInput.hasAnyKey (u : CardUpdateInput) : Bool :=
  u.name.isSome || u.rarity.isSome || u.price.isSome || u.stock.isSome

/-- A created/returned card, as assembled by `createCard`. -/
structure Card where
  id : String
  name : String
  rarity : String
  price : Option Int
  stock : Option Int
  createdBy : String
deriving DecidableEq, Repr

/-- The rarity whitelist hard-coded in `validateCardInput` and
`validateCardUpdate`: `['common', 'uncommon', 'rare', 'epic',
'legendary']` (note: no `'mythic'`). -/
def allowedRarities : List String :=
  ["common", "uncommon", "rare", "epic", "legendary"]

/-- Source `AdminService.validateCardInput`: name must be non-empty after trim,
rarity must be truthy and in the whitelist, price and stock must be
defined and non-negative. -/
def validateCardInput (c : CardInput) : Except AdminError Unit :=
  if c.name = "" || c.name.trim = "" then
    .error (.validation "Card name is required")
  else if c.rarity = "" || !(allowedRarities.contains c.rarity) then
    .error (.validation "Valid card rarity is required")
  else
    match c.price with
    | none => .error (.validation "Card price must be a non-negative number")
    | some p =>
      if p < 0 then .error (.validation "Card price must be a non-negative number")
      else
        match c.stock with
        | none => .error (.validation "Card stock must be a non-negative number")
        | some s =>
          if s < 0 then .error (.validation "Card stock must be a non-negative number")
          else .ok ()

/-- Source `AdminService.validateCardUpdate`: each present field checked as in
`validateCardInput`. -/
def validateCardUpdate (u : CardUpdateInput) : Except AdminError Unit :=
  if u.name.isSome && (u.name.getD "").trim = "" then
    .error (.validation "Card name cannot be empty")
  else if u.rarity.isSome && !(allowedRarities.contains (u.rarity.getD "")) then
    .error (.validation "Invalid card rarity")
  else if u.price.isSome && (u.price.getD 0) < 0 then
    .error (.validation "Card price must be a non-negative number")
  else if u.stock.isSome && (u.stock.getD 0) < 0 then
    .error (.validation "Card stock must be a non-negative number")
  else .ok ()

/-- Source `AdminService.verifyAdminPermissions`: its body only logs the
verification attempt (the permission lookup is a TODO), so it never
throws. -/
def verifyAdminPermissions (adminId permission : String) : Except AdminError Unit :=
  .ok ()

/-- Source `AdminService.createCard`: validate the input, verify permissions,
then return the assembled card (the database insert is a TODO). -/
def createCard (cardData : CardInput) (adminId : String) : Except AdminError Card := do
  validateCardInput cardData
  verifyAdminPermissions adminId "CREATE_CARD"
  pure { id := "card-id", name := cardData.name, rarity := cardData.rarity,
         price := cardData.price, stock := cardData.stock, createdBy := adminId }

/-- Source `AdminService.getCardById`: verifies permissions, then — the
database query being a TODO — unconditionally throws
`NotFoundError` with the temporary-structure message. -/
def getCardById (cardId adminId : String) : Except AdminError Card := do
  verifyAdminPermissions adminId "READ_CARD"
  throw (.notFound ("Card with ID " ++ cardId ++ " not found"))

/-- Source `AdminService.updateCard`: fetches the existing card via
`getCardById` first, then validates and rethrows `NotFoundError` at the
end (the update itself is a TODO). -/
def updateCard (cardId : String) (updateData : CardUpdateInput) (adminId : String) :
    Except AdminError Card := do
  let _existingCard ← getCardById cardId adminId
  if updateData.hasAnyKey then validateCardUpdate updateData
  verifyAdminPermissions adminId "UPDATE_CARD"
  throw (.notFound ("Card with ID " ++ cardId ++ " not found"))

/-- Source `AdminService.deleteCard`: fetches the existing card via
`getCardById` first, verifies permissions, then returns `true` (the
delete itself is a TODO). -/
def deleteCard (cardId adminId : String) : Except AdminError Bool := do
  let _card ← getCardById cardId adminId
  verifyAdminPermissions adminId "DELETE_CARD"
  pure true

/-- Whether an `AdminService` call produced a `ValidationError`. -/
def isValidationError {α : Type} : Except AdminError α → Bool
  | .error (.validation _) => true
  | _ => false

end Admin

/-! ## Pack/Box opening engine

The engine itself is absent from the repository source (only the type
interfaces `Pack`, `PackOpeningResult`, `BoxOpeningResult`,
`UserInventory`, `UserInventoryItem`, `Transaction` exist, in
`customErrors.ts`).  The definitions below are therefore modelled from
the specification, with the data shapes taken from the source
interfaces restricted to the operative fields. -/

namespace Engine

/-- Errors of the engine taxonomy (spec section 7).  `insufficientPool`
is not a class of `customErrors.ts`; it is modelled from the spec. -/
inductive EngineError where
  | validation : String → EngineError
  | notFound : String → EngineError
  | conflict : String → EngineError
  | insufficientPool : String → EngineError
  | internal : String → EngineError
deriving DecidableEq, Repr

/-- A drawn card reference: card id, its rarity, its holo flag, and the
per-card monetary value snapshot taken at draw time (spec section 4.2);
the value is embedded as an integer amount. -/
structure CardRef where
  cardId : String
  rarity : CardRarity
  isHolo : Bool
  value : Int
deriving DecidableEq, Repr

/-- Modelled from the spec: one entry of a RarityTable — a rarity, its
positive sampling weight (embedded as a natural number), and the ordered
sequence of eligible cards of that rarity. -/
structure RarityEntry where
  rarity : CardRarity
  weight : Nat
  eligible : List CardRef
deriving DecidableEq, Repr

/-- Modelled from the spec: a RarityTable owned by a card set — per-
rarity weights and eligible cards, plus the set's non-repeating flag
(spec section 4.2 sampling mode). -/
structure RarityTable where
  entries : List RarityEntry
  nonRepeating : Bool
deriving DecidableEq, Repr

/-- Source `Pack` (source interface, operative fields): cards per pack and the
two guarantee counts. -/
structure Pack where
  id : String
  cardSetId : String
  cardsPerPack : Nat
  guaranteedRares : Nat
  guaranteedHolos : Nat
  price : Int
deriving DecidableEq, Repr

/-- Source `Box` (source interface, operative fields). -/
structure Box where
  id : String
  cardSetId : String
  packsPerBox : Nat
  pricePerBox : Int
deriving DecidableEq, Repr

/-- Source `DrawResult` (spec section 3): the ordered sequence of drawn card
references, ephemeral output of the draw engine. -/
structure DrawResult where
  cards : List CardRef
deriving DecidableEq, Repr

/-- Total weight of a list of rarity entries. -/
def totalWeight (es : List RarityEntry) : Nat :=
  (es.map (·.weight)).sum

/-- Number of eligible cards across a list of rarity entries. -/
def poolSize (es : List RarityEntry) : Nat :=
  (es.map (·.eligible.length)).sum

/-- Modelled from the spec: cumulative-weight selection of a rarity
entry from a random value below the total weight (spec section 4.2 step
3; the spec's binary search over cumulative weights computes the same
entry, embedded here as the linear scan). -/
def cumPick (es : List RarityEntry) (r : Nat) : Option RarityEntry :=
  match es with
  | [] => none
  | e :: rest => if r < e.weight then some e else cumPick rest (r - e.weight)

/-- Modelled from the spec: draw one card — pick a rarity entry
weight-proportionally from `r1`, then a card from its eligible sequence
from `r2`.  Returns `none` when the table is degenerate (no weight, or
an entry with weight but no eligible cards). -/
def drawOne (es : List RarityEntry) (r1 r2 : Nat) : Option CardRef :=
  if totalWeight es = 0 then none
  else
    match cumPick es (r1 % totalWeight es) with
    | none => none
    | some e => e.eligible.get? (r2 % e.eligible.length)

/-- Restrict entries to the cards satisfying a predicate, dropping
entries left with no eligible card (used for the RARE-or-higher and the
holo guarantee pools of spec section 4.2 steps 1 and 2). -/
def restrictEntries (es : List RarityEntry) (p : CardRef → Bool) : List RarityEntry :=
  (es.map fun e => { e with eligible := e.eligible.filter p }).filter
    fun e => !e.eligible.isEmpty

/-- Modelled from the spec: remove one occurrence of a drawn card from
the pool (sampling without replacement for non-repeating sets), dropping
entries left empty. -/
def removeCard (es : List RarityEntry) (c : CardRef) : List RarityEntry :=
  (es.map fun e => { e with eligible := e.eligible.erase c }).filter
    fun e => !e.eligible.isEmpty

/-- Modelled from the spec: draw `count` cards from a pool.  With
replacement when `nonRep = false`; without replacement when
`nonRep = true`, failing with `InsufficientPoolError` when the pool is
smaller than the requested count (spec section 4.2 step 1).  Randomness
is an explicit stream `rand`, consumed two values per slot starting at
index `i`. -/
def drawCards (es : List RarityEntry) (nonRep : Bool) (rand : Nat → Nat) (i : Nat) :
    Nat → Except EngineError (List CardRef)
  | 0 => .ok []
  | count + 1 =>
    if nonRep && decide (poolSize es < count + 1) then
      .error (.insufficientPool "pool smaller than requested count")
    else
      match drawOne es (rand i) (rand (i + 1)) with
      | none => .error (.insufficientPool "empty or degenerate pool")
      | some c =>
        let es' := if nonRep then removeCard es c else es
        (drawCards es' nonRep rand (i + 2) count).map fun rest => c :: rest

/-- Modelled from the spec: Fisher–Yates-style shuffle driven by the
random stream — repeatedly extract the card at a random position (spec
section 4.2 step 4). -/
def shuffleAux : Nat → List CardRef → (Nat → Nat) → Nat → List CardRef
  | 0, l, _, _ => l
  | fuel + 1, l, rand, i =>
    match l.get? (rand i % l.length) with
    | none => l
    | some c => c :: shuffleAux fuel (l.erase c) rand (i + 1)

/-- Shuffle a card list with fuel equal to its length. -/
def shuffleCards (l : List CardRef) (rand : Nat → Nat) (i : Nat) : List CardRef :=
  shuffleAux l.length l rand i

/-- The RARE-or-higher guarantee pool of a table. -/
def rarePool (t : RarityTable) : List RarityEntry :=
  restrictEntries t.entries fun c => c.rarity.isRareOrHigher

/-- The holo guarantee pool of a table. -/
def holoPool (t : RarityTable) : List RarityEntry :=
  restrictEntries t.entries fun c => c.isHolo

/-- Modelled from the spec: the Draw Engine (spec section 4.2).  Step 1
reserves the guaranteed-rare slots from the RARE-or-higher pool, step 2
the guaranteed-holo slots from the holo pool, step 3 fills the remaining
slots by full-table weighted sampling with replacement, step 4 shuffles
the combined slots.  `cardsPerPack = 0` returns an empty result without
touching the random source. -/
def drawPack (t : RarityTable) (p : Pack) (rand : Nat → Nat) :
    Except EngineError DrawResult :=
  if p.cardsPerPack = 0 then .ok ⟨[]⟩
  else do
    let rares ← drawCards (rarePool t) t.nonRepeating rand 0 p.guaranteedRares
    let holos ← drawCards (holoPool t) t.nonRepeating rand
      (2 * p.guaranteedRares) p.guaranteedHolos
    let fill ← drawCards t.entries false rand
      (2 * (p.guaranteedRares + p.guaranteedHolos))
      (p.cardsPerPack - p.guaranteedRares - p.guaranteedHolos)
    pure ⟨shuffleCards (rares ++ holos ++ fill) rand (2 * p.cardsPerPack)⟩

/-- Source `PackOpeningResult` (source interface, operative fields): the cards
obtained, the total snapshot value and the per-rarity breakdown. -/
structure PackOpeningResult where
  id : String
  userId : String
  packId : String
  cardSetId : String
  cardsObtained : List CardRef
  totalValue : Int
  timestamp : Nat
  rarityBreakdown : List (CardRarity × Nat)
deriving DecidableEq, Repr

/-- Source `BoxOpeningResult` (source interface, operative fields). -/
structure BoxOpeningResult where
  id : String
  userId : String
  boxId : String
  packsOpened : List PackOpeningResult
  totalCardsObtained : Nat
  totalValue : Int
  timestamp : Nat
deriving DecidableEq, Repr

/-- Sum of the per-card value snapshots of a drawn card list. -/
def cardsValue (cards : List CardRef) : Int :=
  (cards.map (·.value)).sum

/-- The rarity breakdown of a drawn card list: count per enum member. -/
def rarityBreakdownOf (cards : List CardRef) : List (CardRarity × Nat) :=
  CardRarity.all.map fun r => (r, cards.countP (fun c => c.rarity = r))

/-- Modelled from the spec: fold a DrawResult into a PackOpeningResult
(spec section 3) — cards obtained, total snapshot value, rarity
breakdown, timestamp. -/
def mkPackOpeningResult (id userId : String) (p : Pack) (d : DrawResult) (ts : Nat) :
    PackOpeningResult :=
  { id := id, userId := userId, packId := p.id, cardSetId := p.cardSetId,
    cardsObtained := d.cards, totalValue := cardsValue d.cards,
    timestamp := ts, rarityBreakdown := rarityBreakdownOf d.cards }

/-- Modelled from the spec: invoke the Draw Engine once per pack of a
box with fresh independent randomness per pack — `rand k` is the stream
of the `k`-th pack (spec section 4.3). -/
def drawPackN (t : RarityTable) (p : Pack) (rand : Nat → Nat → Nat) (k : Nat) :
    Nat → Except EngineError (List DrawResult)
  | 0 => .ok []
  | n + 1 => do
    let d ← drawPack t p (rand k)
    let rest ← drawPackN t p rand (k + 1) n
    pure (d :: rest)

/-- Modelled from the spec: the Pack/Box Composer (spec section 4.3) —
expand a box into `packsPerBox` pack draws and aggregate them into a
BoxOpeningResult, totals computed over the per-pack results. -/
def composeBox (t : RarityTable) (p : Pack) (box : Box) (boxResultId userId : String)
    (rand : Nat → Nat → Nat) (ts : Nat) : Except EngineError BoxOpeningResult := do
  let ds ← drawPackN t p rand 0 box.packsPerBox
  let packResults := ds.enum.map fun pr =>
    mkPackOpeningResult (boxResultId ++ "-pack-" ++ toString pr.1) userId p pr.2 ts
  pure { id := boxResultId, userId := userId, boxId := box.id,
         packsOpened := packResults,
         totalCardsObtained := (packResults.map (·.cardsObtained.length)).sum,
         totalValue := (packResults.map (·.totalValue)).sum,
         timestamp := ts }

/-! ### Ledger & Inventory Applier and Orchestrator (spec sections 4.4, 4.5) -/

/-- Source `TransactionStatus` (source enum, operative members). -/
inductive TransactionStatus where
  | pending
  | completed
  | failed
  | cancelled
  | refunded
deriving DecidableEq, Repr

/-- Source `TransactionType` (source enum, operative members). -/
inductive TransactionType where
  | purchase
  | sale
  | trade
  | refund
  | packOpening
  | inventoryAdjustment
deriving DecidableEq, Repr

/-- Source `UserInventoryItem` (source interface, operative fields), extended
by the per-card value snapshot the spec's `totalValue` invariant sums
over (spec section 3). -/
structure UserInventoryItem where
  cardCopyId : String
  quantity : Nat
  snapshotValue : Int
deriving DecidableEq, Repr

/-- Source `UserInventory` (source interface, operative fields): the item list
with the two derived caches. -/
structure UserInventory where
  userId : String
  items : List UserInventoryItem
  totalCards : Nat
  totalValue : Int
deriving DecidableEq, Repr

/-- Source `Transaction` (source interface, operative fields). -/
structure Transaction where
  id : String
  userId : String
  type : TransactionType
  status : TransactionStatus
  amount : Int
deriving DecidableEq, Repr

/-- Modelled from the spec: the per-user persistent state the applier
mutates — the inventory, the append-only transaction ledger, and the
persisted dedup records mapping a requestId to its committed result
(spec sections 4.4 and design note on idempotence-by-requestId). -/
structure UserState where
  inventory : UserInventory
  transactions : List Transaction
  packOpenings : List (String × PackOpeningResult)
  boxOpenings : List (String × BoxOpeningResult)
deriving DecidableEq, Repr

/-- Modelled from the spec: upsert one drawn card into the item list —
increment the quantity when an item with the same card and the same
snapshot value already exists, else create a quantity-1 item (spec
section 4.4). -/
def upsertItem (items : List UserInventoryItem) (c : CardRef) : List UserInventoryItem :=
  match items with
  | [] => [{ cardCopyId := c.cardId, quantity := 1, snapshotValue := c.value }]
  | it :: rest =>
    if it.cardCopyId = c.cardId && it.snapshotValue = c.value then
      { it with quantity := it.quantity + 1 } :: rest
    else
      it :: upsertItem rest c

/-- Modelled from the spec: credit one drawn card — upsert the item and
increment both derived caches by the drawn amounts (spec section 4.4). -/
def creditCard (inv : UserInventory) (c : CardRef) : UserInventory :=
  { inv with items := upsertItem inv.items c,
             totalCards := inv.totalCards + 1,
             totalValue := inv.totalValue + c.value }

/-- Credit every card of a draw into the inventory. -/
def creditAll (inv : UserInventory) (cards : List CardRef) : UserInventory :=
  cards.foldl creditCard inv

/-- Modelled from the spec: the one COMPLETED `PACK_OPENING` ledger row
appended for a pack opening (spec sections 3 and 4.4). -/
def openingTransaction (res : PackOpeningResult) : Transaction :=
  { id := "txn-" ++ res.id, userId := res.userId, type := .packOpening,
    status := .completed, amount := res.totalValue }

/-- Modelled from the spec: the one COMPLETED `PACK_OPENING` ledger row
appended for a box opening. -/
def boxTransaction (res : BoxOpeningResult) : Transaction :=
  { id := "txn-" ++ res.id, userId := res.userId, type := .packOpening,
    status := .completed, amount := res.totalValue }

/-- Modelled from the spec: the Ledger & Inventory Applier
`apply(userId, result, requestId)` (spec section 4.4).  A repeated
`requestId` returns the previously committed result with no mutation.
Otherwise all mutations — inventory deltas, the COMPLETED ledger row
and the dedup record — commit as one atomic unit; a persistence failure
(the environment oracle `persistOk = false`) raises
`InternalServerError` and leaves the state exactly as it was. -/
def applyOpening (s : UserState) (res : PackOpeningResult) (requestId : String)
    (persistOk : Bool) : UserState × Except EngineError PackOpeningResult :=
  match s.packOpenings.lookup requestId with
  | some prev => (s, .ok prev)
  | none =>
    if persistOk then
      ({ inventory := creditAll s.inventory res.cardsObtained,
         transactions := openingTransaction res :: s.transactions,
         packOpenings := (requestId, res) :: s.packOpenings,
         boxOpenings := s.boxOpenings }, .ok res)
    else
      (s, .error (.internal "persistence failure"))

/-- Modelled from the spec: the applier for a box opening — same
contract as `applyOpening`, crediting every card of every pack of the
box (spec sections 4.3 and 4.4). -/
def applyBoxOpening (s : UserState) (res : BoxOpeningResult) (requestId : String)
    (persistOk : Bool) : UserState × Except EngineError BoxOpeningResult :=
  match s.boxOpenings.lookup requestId with
  | some prev => (s, .ok prev)
  | none =>
    if persistOk then
      ({ inventory := creditAll s.inventory
           ((res.packsOpened.map (·.cardsObtained)).flatten),
         transactions := boxTransaction res :: s.transactions,
         packOpenings := s.packOpenings,
         boxOpenings := (requestId, res) :: s.boxOpenings }, .ok res)
    else
      (s, .error (.internal "persistence failure"))

/-- Modelled from the spec: the Opening Orchestrator's
`openPack(userId, packId, requestId)` (spec sections 4.5 and 6) — the
dedup record is checked before any side effect, then the draw runs
(side-effect-free), then the applier commits. -/
def openPack (s : UserState) (t : RarityTable) (p : Pack) (requestId resultId : String)
    (rand : Nat → Nat) (ts : Nat) (persistOk : Bool) :
    UserState × Except EngineError PackOpeningResult :=
  match s.packOpenings.lookup requestId with
  | some prev => (s, .ok prev)
  | none =>
    match drawPack t p rand with
    | .error e => (s, .error e)
    | .ok d =>
      applyOpening s (mkPackOpeningResult resultId s.inventory.userId p d ts) requestId persistOk

/-- Modelled from the spec: the Opening Orchestrator's
`openBox(userId, boxId, requestId)`. -/
def openBox (s : UserState) (t : RarityTable) (p : Pack) (box : Box)
    (requestId resultId : String) (rand : Nat → Nat → Nat) (ts : Nat) (persistOk : Bool) :
    UserState × Except EngineError BoxOpeningResult :=
  match s.boxOpenings.lookup requestId with
  | some prev => (s, .ok prev)
  | none =>
    match composeBox t p box resultId s.inventory.userId rand ts with
    | .error e => (s, .error e)
    | .ok res => applyBoxOpening s res requestId persistOk

/-- One opening request of either kind, for sequences of operations. -/
inductive OpeningReq where
  | pack (t : RarityTable) (p : Pack) (requestId resultId : String)
      (rand : Nat → Nat) (ts : Nat) (persistOk : Bool)
  | box (t : RarityTable) (p : Pack) (b : Box) (requestId resultId : String)
      (rand : Nat → Nat → Nat) (ts : Nat) (persistOk : Bool)

/-- Run one opening request against the state, keeping the state. -/
def stepOpening (s : UserState) : OpeningReq → UserState
  | .pack t p requestId resultId rand ts persistOk =>
    (openPack s t p requestId resultId rand ts persistOk).1
  | .box t p b requestId resultId rand ts persistOk =>
    (openBox s t p b requestId resultId rand ts persistOk).1

/-- Run a sequence of opening requests. -/
def runOpenings (s : UserState) (ops : List OpeningReq) : UserState :=
  ops.foldl stepOpening s

/-- The two derived-cache equations of spec section 3: `totalCards`
equals the sum of item quantities and `totalValue` the sum of quantity
times snapshot value. -/
def InvConsistent (inv : UserInventory) : Prop :=
  inv.totalCards = (inv.items.map (·.quantity)).sum ∧
  inv.totalValue = (inv.items.map fun it => (it.quantity : Int) * it.snapshotValue).sum

instance (inv : UserInventory) : Decidable (InvConsistent inv) := by
  unfold InvConsistent; infer_instance

/-- Source `CreatePackPayload` (source interface, operative fields). -/
structure CreatePackPayload where
  name : String
  cardSetId : String
  cardsPerPack : Nat
  guaranteedRares : Nat
  guaranteedHolos : Nat
  price : Int
deriving DecidableEq, Repr

/-- Modelled from the spec: PackSpec construction — fails with
`ValidationError` unless `guaranteedRares + guaranteedHolos ≤
cardsPerPack` (spec sections 3 and 8; the creation endpoint consuming
`CreatePackPayload` is unimplemented in the source). -/
def createPack (pl : CreatePackPayload) (id : String) : Except EngineError Pack :=
  if pl.cardsPerPack < pl.guaranteedRares + pl.guaranteedHolos then
    .error (.validation "guaranteedRares + guaranteedHolos must not exceed cardsPerPack")
  else
    .ok { id := id, cardSetId := pl.cardSetId, cardsPerPack := pl.cardsPerPack,
          guaranteedRares := pl.guaranteedRares, guaranteedHolos := pl.guaranteedHolos,
          price := pl.price }

/-- All cards of all entries of a pool satisfy the predicate. -/
def EntriesAll (q : CardRef → Bool) (es : List RarityEntry) : Prop :=
  ∀ e ∈ es, ∀ c ∈ e.eligible, q c = true

/-! ### Concrete fixtures, for witnesses -/

/-- A sample common card. -/
def sampleCommon : CardRef := ⟨"c1", .common, false, 2⟩

/-- A sample rare holo card. -/
def sampleRare : CardRef := ⟨"r1", .rare, true, 10⟩

/-- A sample rarity table: common weight 70, rare weight 30, sampling
with replacement. -/
def sampleTable : RarityTable :=
  ⟨[⟨.common, 70, [sampleCommon]⟩, ⟨.rare, 30, [sampleRare]⟩], false⟩

/-- The spec section 8 scenario pack: 10 cards, 2 guaranteed rares, 1
guaranteed holo. -/
def samplePack : Pack := ⟨"p1", "set1", 10, 2, 1, 5⟩

/-- The spec section 8 scenario box: 6 packs. -/
def sampleBox : Box := ⟨"b1", "set1", 6, 25⟩

/-- A deterministic random stream. -/
def zeroRand : Nat → Nat := fun _ => 0

/-- A deterministic per-pack random stream family. -/
def zeroRand2 : Nat → Nat → Nat := fun _ _ => 0

/-- A fresh user state with an empty inventory and ledger. -/
def initialState : UserState := ⟨⟨"u1", [], 0, 0⟩, [], [], []⟩

/-- The draw result of the sample pack under the deterministic stream. -/
def sampleDrawResult : DrawResult :=
  (drawPack sampleTable samplePack zeroRand).toOption.getD ⟨[]⟩

/-- The pack opening result committed by the sample first call. -/
def samplePackResult : PackOpeningResult :=
  mkPackOpeningResult "id1" "u1" samplePack sampleDrawResult 0

/-- A payload satisfying the PackSpec invariant. -/
def goodPayload : CreatePackPayload := ⟨"P", "set1", 10, 2, 1, 5⟩

/-- A payload violating the PackSpec invariant (2 + 1 > 2). -/
def badPayload : CreatePackPayload := ⟨"B", "set1", 2, 2, 1, 5⟩

end Engine

end CardShop

/-! ## Theorems -/

namespace CardShop

/-- Responses produced by appending extra fields after the base object
always carry the three base fields. -/
theorem hasFields_base (a : AppError) (tail : JsonObj) :
    hasField (a.toJSON ++ tail) "status" = true ∧
    hasField (a.toJSON ++ tail) "statusCode" = true ∧
    hasField (a.toJSON ++ tail) "message" = true := by
  simp [hasField, AppError.toJSON, List.lookup]

/-- Every class's `toJSON` output is the base object followed by class-
specific extra fields. -/
theorem toJSON_shape (e : CustomError) : ∃ a tail, e.toJSON = AppError.toJSON a ++ tail := by
  cases e with
  | app a => exact ⟨a, [], (List.append_nil _).symm⟩
  | validation v =>
    rcases hv : v.errors with _ | errs
    · exact ⟨v.toAppError, [], by simp [CustomError.toJSON, ValidationError.toJSON, hv]⟩
    · exact ⟨v.toAppError,
        [("errors", .record (errs.map fun p => (p.1, .arr (p.2.map JsonVal.str))))],
        by simp [CustomError.toJSON, ValidationError.toJSON, hv]⟩
  | notFound v =>
    by_cases h : v.resource.isSome || v.identifier.isSome
    · exact ⟨v.toAppError, [("resource", optStr v.resource), ("identifier", optStr v.identifier)],
        by simp [CustomError.toJSON, NotFoundError.toJSON, h]⟩
    · exact ⟨v.toAppError, [], by simp [CustomError.toJSON, NotFoundError.toJSON, h]⟩
  | unauthorized v => exact ⟨v.toAppError, [], (List.append_nil _).symm⟩
  | forbidden v =>
    rcases hv : v.requiredPermission with _ | p
    · exact ⟨v.toAppError, [], by simp [CustomError.toJSON, ForbiddenError.toJSON, hv]⟩
    · exact ⟨v.toAppError, [("requiredPermission", .str p)],
        by simp [CustomError.toJSON, ForbiddenError.toJSON, hv]⟩
  | conflict v =>
    by_cases h : v.conflictField.isSome || v.conflictValue.isSome
    · exact ⟨v.toAppError,
        [("conflictField", optStr v.conflictField), ("conflictValue", optStr v.conflictValue)],
        by simp [CustomError.toJSON, ConflictError.toJSON, h]⟩
    · exact ⟨v.toAppError, [], by simp [CustomError.toJSON, ConflictError.toJSON, h]⟩
  | internal v => exact ⟨v.toAppError, [], (List.append_nil _).symm⟩

/-- The empty string is not an allowed rarity, so the source's falsy check
on the rarity string is subsumed by the whitelist check. -/
theorem rarity_empty_or (r : String) :
    (r = "" ∨ r ∉ Admin.allowedRarities) ↔ r ∉ Admin.allowedRarities := by
  constructor
  · rintro (rfl | h)
    · decide
    · exact h
  · exact Or.inr

/-- Whether `createCard` produces a `ValidationError` is decided entirely
by `validateCardInput` (permission checks never throw, the insert is a
stub). -/
theorem isValidationError_createCard (c : Admin.CardInput) (a : String) :
    Admin.isValidationError (Admin.createCard c a) =
      Admin.isValidationError (Admin.validateCardInput c) := by
  cases hv : Admin.validateCardInput c with
  | error e =>
    cases e <;> simp [Admin.createCard, hv, Admin.isValidationError, bind, Except.bind]
  | ok u =>
    cases u
    simp [Admin.createCard, hv, Admin.isValidationError, Admin.verifyAdminPermissions,
      bind, Except.bind, pure, Except.pure]

/-- Characterisation of the inputs `validateCardInput` rejects. -/
theorem validateCardInput_iff (c : Admin.CardInput) :
    Admin.isValidationError (Admin.validateCardInput c) = true ↔
      ((c.name = "" ∨ c.name.trim = "") ∨ c.rarity ∉ Admin.allowedRarities ∨
       c.price = none ∨ (∃ p, c.price = some p ∧ p < 0) ∨
       c.stock = none ∨ (∃ q, c.stock = some q ∧ q < 0)) := by
  rcases c with ⟨name, rarity, price, stock⟩
  cases price <;> cases stock <;>
    simp [Admin.validateCardInput, Admin.isValidationError] <;>
    split_ifs <;>
    simp_all [List.contains, List.elem_iff, rarity_empty_or]

end CardShop

namespace CardShop

namespace Engine

/-- Cumulative-weight selection picks an entry of the list. -/
theorem cumPick_mem {es : List RarityEntry} {r : Nat} {e : RarityEntry}
    (h : cumPick es r = some e) : e ∈ es := by
  induction es generalizing r with
  | nil => simp [cumPick] at h
  | cons a rest ih =>
    simp only [cumPick] at h
    split at h
    · cases h; exact List.mem_cons_self _ _
    · exact List.mem_cons_of_mem _ (ih h)

/-- A drawn card comes from the eligible list of some entry of the pool. -/
theorem drawOne_mem {es : List RarityEntry} {r1 r2 : Nat} {c : CardRef}
    (h : drawOne es r1 r2 = some c) : ∃ e ∈ es, c ∈ e.eligible := by
  unfold drawOne at h
  split at h
  · exact absurd h (by simp)
  · split at h
    · exact absurd h (by simp)
    · next e he => exact ⟨e, cumPick_mem he, List.get?_mem h⟩

/-- Every card of a restricted pool satisfies the restriction. -/
theorem restrictEntries_all (es : List RarityEntry) (q : CardRef → Bool) :
    EntriesAll q (restrictEntries es q) := by
  intro e he c hc
  obtain ⟨he', -⟩ := List.mem_filter.mp he
  obtain ⟨e0, -, rfl⟩ := List.mem_map.mp he'
  exact (List.mem_filter.mp hc).2

/-- Removing a card from a pool preserves a predicate satisfied by the
whole pool. -/
theorem removeCard_all {q : CardRef → Bool} {es : List RarityEntry} (c : CardRef)
    (h : EntriesAll q es) : EntriesAll q (removeCard es c) := by
  intro e he x hx
  obtain ⟨he', -⟩ := List.mem_filter.mp he
  obtain ⟨e0, he0, rfl⟩ := List.mem_map.mp he'
  exact h e0 he0 x (e0.eligible.mem_of_mem_erase hx)

/-- All cards drawn from a pool satisfying a predicate satisfy it. -/
theorem drawCards_all {q : CardRef → Bool} :
    ∀ (n : Nat) (es : List RarityEntry) (nonRep : Bool) (rand : Nat → Nat) (i : Nat)
      (cs : List CardRef), EntriesAll q es → drawCards es nonRep rand i n = .ok cs →
      ∀ c ∈ cs, q c = true := by
  intro n
  induction n with
  | zero =>
    intro es nonRep rand i cs _ h c hc
    simp only [drawCards] at h
    cases h
    simp at hc
  | succ k ih =>
    intro es nonRep rand i cs hall h c hc
    simp only [drawCards] at h
    split at h
    · exact absurd h (by simp)
    · split at h
      · exact absurd h (by simp)
      · next c0 hc0 =>
        cases hrec : drawCards (if nonRep then removeCard es c0 else es) nonRep rand (i + 2) k with
        | error e => rw [hrec] at h; exact absurd h (by simp [Except.map])
        | ok rest =>
          rw [hrec] at h
          simp only [Except.map] at h
          cases h
          rcases List.mem_cons.mp hc with rfl | hc'
          · obtain ⟨e, he, hce⟩ := drawOne_mem hc0
            exact hall e he c hce
          · have hall' : EntriesAll q (if nonRep then removeCard es c0 else es) := by
              split
              · exact removeCard_all c0 hall
              · exact hall
            exact ih _ nonRep rand (i + 2) rest hall' hrec c hc'

/-- A successful draw returns exactly the requested number of cards. -/
theorem drawCards_length :
    ∀ (n : Nat) (es : List RarityEntry) (nonRep : Bool) (rand : Nat → Nat) (i : Nat)
      (cs : List CardRef), drawCards es nonRep rand i n = .ok cs → cs.length = n := by
  intro n
  induction n with
  | zero =>
    intro es nonRep rand i cs h
    simp only [drawCards] at h
    cases h
    rfl
  | succ k ih =>
    intro es nonRep rand i cs h
    simp only [drawCards] at h
    split at h
    · exact absurd h (by simp)
    · split at h
      · exact absurd h (by simp)
      · next c0 hc0 =>
        cases hrec : drawCards (if nonRep then removeCard es c0 else es) nonRep rand (i + 2) k with
        | error e => rw [hrec] at h; exact absurd h (by simp [Except.map])
        | ok rest =>
          rw [hrec] at h
          simp only [Except.map] at h
          cases h
          simp [ih _ nonRep rand (i + 2) rest hrec]

/-- The random-extraction shuffle is a permutation, for any fuel. -/
theorem shuffleAux_perm :
    ∀ (fuel : Nat) (l : List CardRef) (rand : Nat → Nat) (i : Nat),
      (shuffleAux fuel l rand i).Perm l := by
  intro fuel
  induction fuel with
  | zero => intro l rand i; simp [shuffleAux]
  | succ k ih =>
    intro l rand i
    simp only [shuffleAux]
    cases hg : l.get? (rand i % l.length) with
    | none => exact List.Perm.refl l
    | some c =>
      have hc : c ∈ l := List.get?_mem hg
      exact ((ih (l.erase c) rand (i + 1)).cons c).trans (List.perm_cons_erase hc).symm

/-- The shuffled slot order is a permutation of the combined slots. -/
theorem shuffleCards_perm (l : List CardRef) (rand : Nat → Nat) (i : Nat) :
    (shuffleCards l rand i).Perm l :=
  shuffleAux_perm l.length l rand i

/-- Structure of a successful pack draw: the empty edge case, or the
three phases succeeding with the result a permutation of their
concatenation. -/
theorem drawPack_ok_cases {t : RarityTable} {p : Pack} {rand : Nat → Nat} {d : DrawResult}
    (h : drawPack t p rand = .ok d) :
    (p.cardsPerPack = 0 ∧ d.cards = []) ∨
    (p.cardsPerPack ≠ 0 ∧ ∃ rares holos fill,
      drawCards (rarePool t) t.nonRepeating rand 0 p.guaranteedRares = .ok rares ∧
      drawCards (holoPool t) t.nonRepeating rand (2 * p.guaranteedRares)
        p.guaranteedHolos = .ok holos ∧
      drawCards t.entries false rand (2 * (p.guaranteedRares + p.guaranteedHolos))
        (p.cardsPerPack - p.guaranteedRares - p.guaranteedHolos) = .ok fill ∧
      d.cards.Perm (rares ++ holos ++ fill)) := by
  unfold drawPack at h
  split at h
  · left
    cases h
    exact ⟨by assumption, rfl⟩
  · right
    refine ⟨by assumption, ?_⟩
    cases hr : drawCards (rarePool t) t.nonRepeating rand 0 p.guaranteedRares with
    | error e => rw [hr] at h; exact absurd h (by simp [bind, Except.bind])
    | ok rares =>
      rw [hr] at h
      cases hh : drawCards (holoPool t) t.nonRepeating rand (2 * p.guaranteedRares)
          p.guaranteedHolos with
      | error e =>
        rw [hh] at h; exact absurd h (by simp [bind, Except.bind])
      | ok holos =>
        rw [hh] at h
        cases hf : drawCards t.entries false rand
            (2 * (p.guaranteedRares + p.guaranteedHolos))
            (p.cardsPerPack - p.guaranteedRares - p.guaranteedHolos) with
        | error e =>
          rw [hf] at h; exact absurd h (by simp [bind, Except.bind])
        | ok fill =>
          rw [hf] at h
          simp only [bind, Except.bind, pure, Except.pure] at h
          cases h
          exact ⟨rares, holos, fill, rfl, rfl, rfl, shuffleCards_perm _ _ _⟩

/-- A successful pack draw meets both guarantee counts and has exactly
`cardsPerPack` cards, under the PackSpec invariant. -/
theorem drawPack_counts {t : RarityTable} {p : Pack} {rand : Nat → Nat} {d : DrawResult}
    (hle : p.guaranteedRares + p.guaranteedHolos ≤ p.cardsPerPack)
    (h : drawPack t p rand = .ok d) :
    p.guaranteedRares ≤ d.cards.countP (fun c => c.rarity.isRareOrHigher) ∧
    p.guaranteedHolos ≤ d.cards.countP (fun c => c.isHolo) ∧
    d.cards.length = p.cardsPerPack := by
  rcases drawPack_ok_cases h with ⟨h0, hnil⟩ | ⟨h0, rares, holos, fill, hr, hh, hf, hperm⟩
  · have hg : p.guaranteedRares = 0 ∧ p.guaranteedHolos = 0 := by omega
    simp [hnil, hg.1, hg.2, h0]
  · have hrlen : rares.length = p.guaranteedRares := drawCards_length _ _ _ _ _ _ hr
    have hhlen : holos.length = p.guaranteedHolos := drawCards_length _ _ _ _ _ _ hh
    have hflen : fill.length = p.cardsPerPack - p.guaranteedRares - p.guaranteedHolos :=
      drawCards_length _ _ _ _ _ _ hf
    have hrall : ∀ c ∈ rares, (fun c : CardRef => c.rarity.isRareOrHigher) c = true :=
      drawCards_all _ _ _ _ _ _ (restrictEntries_all t.entries _) hr
    have hhall : ∀ c ∈ holos, (fun c : CardRef => c.isHolo) c = true :=
      drawCards_all _ _ _ _ _ _ (restrictEntries_all t.entries _) hh
    have hrcnt : rares.countP (fun c => c.rarity.isRareOrHigher) = rares.length :=
      List.countP_eq_length.mpr hrall
    have hhcnt : holos.countP (fun c => c.isHolo) = holos.length :=
      List.countP_eq_length.mpr hhall
    have hcnt1 := hperm.countP_eq (fun c : CardRef => c.rarity.isRareOrHigher)
    have hcnt2 := hperm.countP_eq (fun c : CardRef => c.isHolo)
    have hlen := hperm.length_eq
    simp only [List.countP_append, List.length_append] at hcnt1 hcnt2 hlen
    omega

/-- The payload of an enumeration entry is a member of the list. -/
theorem mem_of_mem_enum {α : Type} {l : List α} {x : Nat × α} (h : x ∈ l.enum) : x.2 ∈ l := by
  rw [List.enum_eq_zip_range] at h
  exact (List.of_mem_zip h).2

/-- A list of naturals all equal to `n` sums to its length times `n`. -/
theorem sum_eq_of_all {l : List Nat} {n : Nat} (h : ∀ x ∈ l, x = n) :
    l.sum = l.length * n := by
  induction l with
  | nil => simp
  | cons a rest ih =>
    have ha := h a (List.mem_cons_self _ _)
    have := ih fun x hx => h x (List.mem_cons_of_mem _ hx)
    simp [ha, this]
    ring

/-- Summing per-card values over the flattened obtained cards equals
summing the per-pack value sums. -/
theorem value_flatten (rs : List PackOpeningResult) :
    ((rs.map (·.cardsObtained)).flatten.map (·.value)).sum =
      (rs.map fun r => cardsValue r.cardsObtained).sum := by
  induction rs with
  | nil => simp
  | cons a rest ih =>
    simp only [List.map_cons, List.flatten_cons, List.map_append, List.sum_append,
      List.sum_cons, ih, cardsValue]

/-- A successful multi-pack draw yields one result per pack, each a
successful single-pack draw. -/
theorem drawPackN_ok {t : RarityTable} {p : Pack} {rand : Nat → Nat → Nat} :
    ∀ (n k : Nat) (ds : List DrawResult), drawPackN t p rand k n = .ok ds →
      ds.length = n ∧ ∀ d ∈ ds, ∃ j, drawPack t p (rand j) = .ok d := by
  intro n
  induction n with
  | zero =>
    intro k ds h
    simp only [drawPackN] at h
    cases h
    simp
  | succ m ih =>
    intro k ds h
    simp only [drawPackN] at h
    cases hd : drawPack t p (rand k) with
    | error e => rw [hd] at h; exact absurd h (by simp [bind, Except.bind])
    | ok d =>
      rw [hd] at h
      cases hrest : drawPackN t p rand (k + 1) m with
      | error e => rw [hrest] at h; exact absurd h (by simp [bind, Except.bind])
      | ok rest =>
        rw [hrest] at h
        simp only [bind, Except.bind, pure, Except.pure] at h
        cases h
        obtain ⟨hlen, hmem⟩ := ih (k + 1) rest hrest
        refine ⟨by simp [hlen], ?_⟩
        intro x hx
        rcases List.mem_cons.mp hx with rfl | hx'
        · exact ⟨k, hd⟩
        · exact hmem x hx'

/-- Structure of a successful box composition. -/
theorem composeBox_ok {t : RarityTable} {p : Pack} {box : Box} {bid uid : String}
    {rand : Nat → Nat → Nat} {ts : Nat} {res : BoxOpeningResult}
    (h : composeBox t p box bid uid rand ts = .ok res) :
    ∃ ds, drawPackN t p rand 0 box.packsPerBox = .ok ds ∧
      res.packsOpened = ds.enum.map (fun pr =>
        mkPackOpeningResult (bid ++ "-pack-" ++ toString pr.1) uid p pr.2 ts) ∧
      res.totalCardsObtained = (res.packsOpened.map (·.cardsObtained.length)).sum ∧
      res.totalValue = (res.packsOpened.map (·.totalValue)).sum := by
  unfold composeBox at h
  cases hds : drawPackN t p rand 0 box.packsPerBox with
  | error e => rw [hds] at h; exact absurd h (by simp [bind, Except.bind])
  | ok ds =>
    rw [hds] at h
    simp only [bind, Except.bind, pure, Except.pure] at h
    cases h
    exact ⟨ds, rfl, rfl, rfl, rfl⟩

/-- A successful box composition has the advertised totals. -/
theorem box_totals {t : RarityTable} {p : Pack} {box : Box} {bid uid : String}
    {rand : Nat → Nat → Nat} {ts : Nat} {res : BoxOpeningResult}
    (hle : p.guaranteedRares + p.guaranteedHolos ≤ p.cardsPerPack)
    (h : composeBox t p box bid uid rand ts = .ok res) :
    res.packsOpened.length = box.packsPerBox ∧
    res.totalCardsObtained = box.packsPerBox * p.cardsPerPack ∧
    res.totalValue = ((res.packsOpened.map (·.cardsObtained)).flatten.map (·.value)).sum := by
  obtain ⟨ds, hds, hpo, hcount, hval⟩ := composeBox_ok h
  obtain ⟨hdslen, hdsmem⟩ := drawPackN_ok _ _ ds hds
  have hlen : res.packsOpened.length = box.packsPerBox := by
    rw [hpo]; simp [hdslen]
  refine ⟨hlen, ?_, ?_⟩
  · have hall : ∀ x ∈ res.packsOpened.map (·.cardsObtained.length), x = p.cardsPerPack := by
      intro x hx
      obtain ⟨r, hr, rfl⟩ := List.mem_map.mp hx
      rw [hpo] at hr
      obtain ⟨pr, hpr, rfl⟩ := List.mem_map.mp hr
      obtain ⟨j, hj⟩ := hdsmem pr.2 (mem_of_mem_enum hpr)
      exact (drawPack_counts hle hj).2.2
    rw [hcount, sum_eq_of_all hall, List.length_map, hlen]
  · rw [hval, value_flatten]
    congr 1
    apply List.map_congr_left
    intro r hr
    rw [hpo] at hr
    obtain ⟨pr, hpr, rfl⟩ := List.mem_map.mp hr
    rfl

end Engine

end CardShop

namespace CardShop

namespace Engine

/-- Upserting a card raises the quantity sum by exactly one. -/
theorem upsertItem_qsum (items : List UserInventoryItem) (c : CardRef) :
    ((upsertItem items c).map (·.quantity)).sum = (items.map (·.quantity)).sum + 1 := by
  induction items with
  | nil => simp [upsertItem]
  | cons it rest ih =>
    simp only [upsertItem]
    split
    · simp; omega
    · simp [ih]; omega

/-- Upserting a card raises the value sum by exactly the card's snapshot
value. -/
theorem upsertItem_vsum (items : List UserInventoryItem) (c : CardRef) :
    ((upsertItem items c).map fun it => (it.quantity : Int) * it.snapshotValue).sum =
      (items.map fun it => (it.quantity : Int) * it.snapshotValue).sum + c.value := by
  induction items with
  | nil => simp [upsertItem]
  | cons it rest ih =>
    simp only [upsertItem]
    split
    · next hcond =>
      have h2 : it.snapshotValue = c.value := by
        simp only [Bool.and_eq_true, decide_eq_true_eq] at hcond
        exact hcond.2
      simp [h2]
      ring
    · simp [ih]
      ring

/-- Crediting one card preserves the derived-cache equations. -/
theorem creditCard_consistent {inv : UserInventory} (c : CardRef)
    (h : InvConsistent inv) : InvConsistent (creditCard inv c) := by
  obtain ⟨h1, h2⟩ := h
  constructor
  · simp [creditCard, upsertItem_qsum, h1]
  · simp [creditCard, upsertItem_vsum, h2]

/-- Crediting a whole draw preserves the derived-cache equations. -/
theorem creditAll_consistent :
    ∀ (cards : List CardRef) (inv : UserInventory), InvConsistent inv →
      InvConsistent (creditAll inv cards) := by
  intro cards
  induction cards with
  | nil => intro inv h; simpa [creditAll] using h
  | cons c rest ih =>
    intro inv h
    simpa [creditAll] using ih (creditCard inv c) (creditCard_consistent c h)

/-- The applier either leaves the state unchanged or credits the full
draw. -/
theorem applyOpening_fst (s : UserState) (res : PackOpeningResult) (rid : String)
    (pok : Bool) :
    (applyOpening s res rid pok).1 = s ∨
    (applyOpening s res rid pok).1.inventory = creditAll s.inventory res.cardsObtained := by
  cases hl : s.packOpenings.lookup rid with
  | some prev => simp [applyOpening, hl]
  | none => cases pok <;> simp [applyOpening, hl]

/-- The box applier either leaves the state unchanged or credits every
card of the box. -/
theorem applyBoxOpening_fst (s : UserState) (res : BoxOpeningResult) (rid : String)
    (pok : Bool) :
    (applyBoxOpening s res rid pok).1 = s ∨
    (applyBoxOpening s res rid pok).1.inventory =
      creditAll s.inventory ((res.packsOpened.map (·.cardsObtained)).flatten) := by
  cases hl : s.boxOpenings.lookup rid with
  | some prev => simp [applyBoxOpening, hl]
  | none => cases pok <;> simp [applyBoxOpening, hl]

/-- The applier preserves the derived-cache equations. -/
theorem applyOpening_consistent {s : UserState} (res : PackOpeningResult) (rid : String)
    (pok : Bool) (h : InvConsistent s.inventory) :
    InvConsistent ((applyOpening s res rid pok).1).inventory := by
  rcases applyOpening_fst s res rid pok with heq | heq
  · rw [heq]; exact h
  · rw [heq]; exact creditAll_consistent _ _ h

/-- The box applier preserves the derived-cache equations. -/
theorem applyBoxOpening_consistent {s : UserState} (res : BoxOpeningResult) (rid : String)
    (pok : Bool) (h : InvConsistent s.inventory) :
    InvConsistent ((applyBoxOpening s res rid pok).1).inventory := by
  rcases applyBoxOpening_fst s res rid pok with heq | heq
  · rw [heq]; exact h
  · rw [heq]; exact creditAll_consistent _ _ h

/-- One opening step preserves the derived-cache equations. -/
theorem stepOpening_consistent {s : UserState} (op : OpeningReq)
    (h : InvConsistent s.inventory) : InvConsistent (stepOpening s op).inventory := by
  cases op with
  | pack t p rid rida rand ts pok =>
    simp only [stepOpening, openPack]
    cases hl : s.packOpenings.lookup rid with
    | some prev => exact h
    | none =>
      cases hd : drawPack t p rand with
      | error e => exact h
      | ok d => exact applyOpening_consistent _ _ _ h
  | box t p b rid rida rand ts pok =>
    simp only [stepOpening, openBox]
    cases hl : s.boxOpenings.lookup rid with
    | some prev => exact h
    | none =>
      cases hd : composeBox t p b rida s.inventory.userId rand ts with
      | error e => exact h
      | ok res => exact applyBoxOpening_consistent _ _ _ h

/-- Any sequence of openings preserves the derived-cache equations. -/
theorem runOpenings_consistent :
    ∀ (ops : List OpeningReq) (s : UserState), InvConsistent s.inventory →
      InvConsistent (runOpenings s ops).inventory := by
  intro ops
  induction ops with
  | nil => intro s h; simpa [runOpenings] using h
  | cons op rest ih =>
    intro s h
    simpa [runOpenings] using ih (stepOpening s op) (stepOpening_consistent op h)

/-- A successful application leaves a dedup record mapping the requestId
to the returned result. -/
theorem applyOpening_ok_lookup {s : UserState} {res : PackOpeningResult} {rid : String}
    {pok : Bool} {r : PackOpeningResult} (h : (applyOpening s res rid pok).2 = .ok r) :
    ((applyOpening s res rid pok).1).packOpenings.lookup rid = some r := by
  cases hl : s.packOpenings.lookup rid with
  | some prev =>
    simp only [applyOpening, hl] at h ⊢
    cases h
    rfl
  | none =>
    cases pok with
    | false => simp [applyOpening, hl] at h
    | true =>
      simp only [applyOpening, hl] at h ⊢
      cases h
      simp [List.lookup]

/-- A successful orchestrated opening leaves a dedup record mapping the
requestId to the returned result. -/
theorem openPack_ok_lookup {s : UserState} {t : RarityTable} {p : Pack}
    {rid rida : String} {rand : Nat → Nat} {ts : Nat} {pok : Bool} {r : PackOpeningResult}
    (h : (openPack s t p rid rida rand ts pok).2 = .ok r) :
    ((openPack s t p rid rida rand ts pok).1).packOpenings.lookup rid = some r := by
  cases hl : s.packOpenings.lookup rid with
  | some prev =>
    simp only [openPack, hl] at h ⊢
    cases h
    rfl
  | none =>
    simp only [openPack, hl] at h ⊢
    cases hd : drawPack t p rand with
    | error e => rw [hd] at h; simp at h
    | ok d => rw [hd] at h; exact applyOpening_ok_lookup h

/-- An opening whose requestId has a dedup record returns the stored
result and changes nothing, whatever the other arguments. -/
theorem openPack_hit {s : UserState} {rid : String} {r : PackOpeningResult}
    (t : RarityTable) (p : Pack) (rida : String) (rand : Nat → Nat) (ts : Nat) (pok : Bool)
    (hl : s.packOpenings.lookup rid = some r) :
    openPack s t p rid rida rand ts pok = (s, .ok r) := by
  simp [openPack, hl]

end Engine

end CardShop

/-! ## Claim theorems -/

namespace CardShop

open Engine

/-- Claim C1: every call to the applier's `apply(userId, result,
requestId)` is all-or-nothing — the resulting state is either exactly
the prior state, or the prior state with every inventory delta, the one
COMPLETED transaction row and the dedup record all applied; and when the
persistence failure occurs the call raises `InternalServerError` with
the state exactly as it was before. -/
theorem applyOpening_atomic (s : UserState) (res : PackOpeningResult) (requestId : String)
    (persistOk : Bool) :
    ((applyOpening s res requestId persistOk).1 = s ∨
      ((applyOpening s res requestId persistOk).1 =
          { inventory := creditAll s.inventory res.cardsObtained,
            transactions := openingTransaction res :: s.transactions,
            packOpenings := (requestId, res) :: s.packOpenings,
            boxOpenings := s.boxOpenings } ∧
        (openingTransaction res).status = TransactionStatus.completed ∧
        (applyOpening s res requestId persistOk).2 = .ok res)) ∧
    ((applyOpening s res requestId persistOk).2.isOk = false →
      (applyOpening s res requestId persistOk).1 = s ∧
      (applyOpening s res requestId persistOk).2 =
        .error (.internal "persistence failure")) := by
  cases hl : s.packOpenings.lookup requestId with
  | some prev => simp [applyOpening, hl, openingTransaction, Except.isOk, Except.toBool]
  | none =>
    cases persistOk <;>
      simp [applyOpening, hl, openingTransaction, Except.isOk, Except.toBool]

/-- Witness for C1: a concrete failed persistence leaves the fresh state
untouched and raises the internal error. -/
theorem applyOpening_atomic_witness :
    (applyOpening initialState samplePackResult "rq" false).1 = initialState ∧
    (applyOpening initialState samplePackResult "rq" false).2 =
      .error (.internal "persistence failure") :=
  (applyOpening_atomic initialState samplePackResult "rq" false).2 (by rfl)

/-- Claim C2: after a successful `openPack` call, any repeated call with
the same requestId — whatever table, pack, randomness or persistence
outcome — returns the identical committed `PackOpeningResult` and leaves
the state (inventory, ledger, dedup records) unchanged, so inventory is
credited exactly once. -/
theorem openPack_idempotent (s : UserState) (t : RarityTable) (p : Pack)
    (requestId resultId : String) (rand : Nat → Nat) (ts : Nat) (persistOk : Bool)
    (t' : RarityTable) (p' : Pack) (resultId' : String) (rand' : Nat → Nat) (ts' : Nat)
    (persistOk' : Bool) (r : PackOpeningResult)
    (h : (openPack s t p requestId resultId rand ts persistOk).2 = .ok r) :
    openPack (openPack s t p requestId resultId rand ts persistOk).1 t' p' requestId
      resultId' rand' ts' persistOk'
      = ((openPack s t p requestId resultId rand ts persistOk).1, .ok r) :=
  openPack_hit t' p' resultId' rand' ts' persistOk' (openPack_ok_lookup h)

/-- Witness for C2: a concrete successful opening repeated with the same
requestId returns the same result with no state change. -/
theorem openPack_idempotent_witness :
    openPack (openPack initialState sampleTable samplePack "rq" "id1" zeroRand 0 true).1
      sampleTable samplePack "rq" "id2" zeroRand 9 true
      = ((openPack initialState sampleTable samplePack "rq" "id1" zeroRand 0 true).1,
         .ok samplePackResult) :=
  openPack_idempotent initialState sampleTable samplePack "rq" "id1" zeroRand 0 true
    sampleTable samplePack "id2" zeroRand 9 true samplePackResult (by rfl)

/-- Claim C3: after any sequence of pack or box openings, the derived
caches equal the sums over the inventory items — `totalCards` equals the
sum of the quantities and `totalValue` the sum of quantity times
per-card snapshot value. -/
theorem inventory_caches_consistent (s : UserState) (ops : List OpeningReq)
    (h : InvConsistent s.inventory) :
    InvConsistent (runOpenings s ops).inventory :=
  runOpenings_consistent ops s h

/-- Witness for C3: the caches stay consistent across a concrete pack
opening followed by a box opening. -/
theorem inventory_caches_consistent_witness :
    InvConsistent initialState.inventory ∧
    InvConsistent (runOpenings initialState
      [.pack sampleTable samplePack "a" "i1" zeroRand 0 true,
       .box sampleTable samplePack sampleBox "b" "i2" zeroRand2 1 true]).inventory :=
  ⟨by decide, inventory_caches_consistent initialState _ (by decide)⟩

/-- Claim C4: every DrawResult the Draw Engine produces — whatever the
random outcome — has at least `guaranteedRares` cards of rarity RARE or
higher and at least `guaranteedHolos` holo cards, for any pack
satisfying the PackSpec invariant. -/
theorem drawPack_guarantees (t : RarityTable) (p : Pack) (rand : Nat → Nat)
    (d : DrawResult) (hspec : p.guaranteedRares + p.guaranteedHolos ≤ p.cardsPerPack)
    (h : drawPack t p rand = .ok d) :
    p.guaranteedRares ≤ d.cards.countP (fun c => c.rarity.isRareOrHigher) ∧
    p.guaranteedHolos ≤ d.cards.countP (fun c => c.isHolo) :=
  ⟨(drawPack_counts hspec h).1, (drawPack_counts hspec h).2.1⟩

/-- Witness for C4: the concrete sample draw meets both guarantees. -/
theorem drawPack_guarantees_witness :
    samplePack.guaranteedRares + samplePack.guaranteedHolos ≤ samplePack.cardsPerPack ∧
    2 ≤ sampleDrawResult.cards.countP (fun c => c.rarity.isRareOrHigher) ∧
    1 ≤ sampleDrawResult.cards.countP (fun c => c.isHolo) :=
  ⟨by decide, drawPack_guarantees sampleTable samplePack zeroRand sampleDrawResult
    (by decide) rfl⟩

/-- Claim C5: PackSpec construction succeeds exactly when
`guaranteedRares + guaranteedHolos ≤ cardsPerPack`; every constructed
pack satisfies the invariant, and every violating payload fails with
`ValidationError`. -/
theorem createPack_validates (pl : CreatePackPayload) (id : String) :
    ((∃ pk, createPack pl id = .ok pk) ↔
      pl.guaranteedRares + pl.guaranteedHolos ≤ pl.cardsPerPack) ∧
    (∀ pk, createPack pl id = .ok pk →
      pk.guaranteedRares + pk.guaranteedHolos ≤ pk.cardsPerPack) ∧
    (pl.cardsPerPack < pl.guaranteedRares + pl.guaranteedHolos →
      createPack pl id = .error (.validation
        "guaranteedRares + guaranteedHolos must not exceed cardsPerPack")) := by
  by_cases hc : pl.cardsPerPack < pl.guaranteedRares + pl.guaranteedHolos <;>
    simp [createPack, hc] <;> omega

/-- Witness for C5: a valid payload constructs and an invalid one fails
with the validation error. -/
theorem createPack_validates_witness :
    (∃ pk, createPack goodPayload "p1" = .ok pk) ∧
    createPack badPayload "p2" = .error (.validation
      "guaranteedRares + guaranteedHolos must not exceed cardsPerPack") :=
  ⟨(createPack_validates goodPayload "p1").1.mpr (by decide),
   (createPack_validates badPayload "p2").2.2 (by decide)⟩

/-- Claim C6: a successful pack draw yields exactly `cardsPerPack` cards;
a successful box composition yields one result per pack,
`totalCardsObtained` equal to the number of packs times `cardsPerPack`
(the sum of `cardsPerPack` over its packs) and `totalValue` equal to the
sum of the per-card snapshot values; in particular the sample
10-card pack yields 10 cards and the sample 6-pack box yields
`totalCardsObtained = 60`. -/
theorem pack_box_yields (t : RarityTable) (p : Pack) (box : Box) (bid uid : String)
    (rand2 : Nat → Nat → Nat) (ts : Nat)
    (hspec : p.guaranteedRares + p.guaranteedHolos ≤ p.cardsPerPack) :
    (∀ (rand : Nat → Nat) (d : DrawResult), drawPack t p rand = .ok d →
      d.cards.length = p.cardsPerPack) ∧
    (∀ res : BoxOpeningResult, composeBox t p box bid uid rand2 ts = .ok res →
      res.packsOpened.length = box.packsPerBox ∧
      res.totalCardsObtained = box.packsPerBox * p.cardsPerPack ∧
      res.totalValue =
        ((res.packsOpened.map (·.cardsObtained)).flatten.map (·.value)).sum) ∧
    sampleDrawResult.cards.length = 10 ∧
    ((composeBox sampleTable samplePack sampleBox "b1" "u1" zeroRand2 0).map
      (·.totalCardsObtained)) = .ok 60 :=
  ⟨fun _ _ h => (drawPack_counts hspec h).2.2,
   fun _ h => box_totals hspec h,
   by decide, by rfl⟩

/-- Witness for C6: the sample pack satisfies the invariant and its draw
yields exactly 10 cards. -/
theorem pack_box_yields_witness :
    samplePack.guaranteedRares + samplePack.guaranteedHolos ≤ samplePack.cardsPerPack ∧
    sampleDrawResult.cards.length = 10 :=
  ⟨by decide,
   (pack_box_yields sampleTable samplePack sampleBox "b1" "u1" zeroRand2 0 (by decide)).2.2.1⟩

/-- Claim C7: every error class's `toJSON` response carries the fields
`status`, `statusCode` and `message`, and two `InternalServerError`
values with the same message (and the constructor-fixed status code 500)
but different wrapped `originalError` values produce identical
responses — persistence details never reach the response. -/
theorem errors_response_stable (e : CustomError) (m : String) (oe oe' : Option String) :
    (hasField e.toJSON "status" = true ∧ hasField e.toJSON "statusCode" = true ∧
     hasField e.toJSON "message" = true) ∧
    InternalServerError.toJSON ⟨m, oe⟩ = InternalServerError.toJSON ⟨m, oe'⟩ := by
  refine ⟨?_, rfl⟩
  obtain ⟨a, tail, h⟩ := toJSON_shape e
  rw [h]
  exact hasFields_base a tail

/-- Counterexample for C8: the source file `customErrors.ts` defines no
`InsufficientPoolError` class. -/
theorem insufficientPool_class_missing : "InsufficientPoolError" ∉ customErrorsClassNames := by
  decide

/-- Claim C8 (amended): the source defines distinct classes for
ValidationError, NotFoundError, ConflictError and InternalServerError —
each constructible from a message and carrying its status code — but no
`InsufficientPoolError` class; in the spec-modelled draw engine a
non-repeating guarantee draw whose pool is smaller than the requested
count fails with the insufficient-pool error. -/
theorem error_taxonomy_amended (m : String) (es : List RarityEntry)
    (rand : Nat → Nat) (i k : Nat) (h : poolSize es < k + 1) :
    "ValidationError" ∈ customErrorsClassNames ∧
    "NotFoundError" ∈ customErrorsClassNames ∧
    "ConflictError" ∈ customErrorsClassNames ∧
    "InternalServerError" ∈ customErrorsClassNames ∧
    ({ message := m : ValidationError }).toAppError.statusCode = 400 ∧
    ({ message := m : NotFoundError }).toAppError.statusCode = 404 ∧
    ({ message := m : ConflictError }).toAppError.statusCode = 409 ∧
    ({ message := m : InternalServerError }).toAppError.statusCode = 500 ∧
    drawCards es true rand i (k + 1) =
      .error (.insufficientPool "pool smaller than requested count") := by
  refine ⟨by decide, by decide, by decide, by decide, rfl, rfl, rfl, rfl, ?_⟩
  simp [drawCards, h]

/-- Witness for C8 (amended): a concrete empty pool fails a 1-card
non-repeating draw with the insufficient-pool error. -/
theorem error_taxonomy_amended_witness :
    poolSize [] < 1 ∧
    drawCards [] true zeroRand 0 1 =
      .error (.insufficientPool "pool smaller than requested count") :=
  ⟨by decide,
   (error_taxonomy_amended "x" [] zeroRand 0 0 (by decide)).2.2.2.2.2.2.2.2⟩

/-- Claim C9: `AdminService.getCardById` throws `NotFoundError` for every
input, and `updateCard` and `deleteCard`, which call it first, do the
same and never reach their mutation steps. -/
theorem adminService_always_notFound (cardId adminId : String)
    (u : Admin.CardUpdateInput) :
    Admin.getCardById cardId adminId =
      .error (.notFound ("Card with ID " ++ cardId ++ " not found")) ∧
    Admin.updateCard cardId u adminId =
      .error (.notFound ("Card with ID " ++ cardId ++ " not found")) ∧
    Admin.deleteCard cardId adminId =
      .error (.notFound ("Card with ID " ++ cardId ++ " not found")) :=
  ⟨rfl, rfl, rfl⟩

/-- Claim C10: `AdminService.createCard` raises `ValidationError` exactly
when the name is empty or whitespace-only, the rarity lies outside the
whitelist, the price is undefined or negative, or the stock is undefined
or negative; in particular rarity "mythic" is always rejected even
though the `CardRarity` enum includes MYTHIC. -/
theorem createCard_validation_iff (c : Admin.CardInput) (adminId : String) :
    (Admin.isValidationError (Admin.createCard c adminId) = true ↔
      ((c.name = "" ∨ c.name.trim = "") ∨ c.rarity ∉ Admin.allowedRarities ∨
       c.price = none ∨ (∃ p, c.price = some p ∧ p < 0) ∨
       c.stock = none ∨ (∃ q, c.stock = some q ∧ q < 0))) ∧
    Admin.isValidationError (Admin.createCard
      { name := "Dragon", rarity := CardRarity.mythic.value, price := some 5,
        stock := some 3 } adminId) = true ∧
    CardRarity.mythic.value ∉ Admin.allowedRarities := by
  refine ⟨?_, ?_, by decide⟩
  · rw [isValidationError_createCard]
    exact validateCardInput_iff c
  · rw [isValidationError_createCard]
    exact (validateCardInput_iff _).mpr (Or.inr (Or.inl (by decide)))

end CardShop
